import Mathlib

/-!
Verification of the fetch-url extension of the mypi repository.

This file gives a shallow embedding of the content of
src/extensions/fetch-url.ts: the redirect-following fetcher
(fetchContent), the RSC payload extractor (parseRsc) together with a
model of the JavaScript JSON.parse it relies on, the challenge
detector, the Readability call site, and the orchestrating execute
entry point of the fetch_url tool.  External collaborators (the
network, JSDOM plus Readability, Turndown) are modelled as abstract
inputs; everything the TypeScript source computes itself is translated
operation by operation.
-/

namespace FetchUrl

/-! ## HTTP fetcher (fetchContent, src/extensions/fetch-url.ts lines 12-60) -/

/-- A raw HTTP response as observed by the node http client: status code
(0 models an undefined statusCode), the Location header (empty string
models an absent or empty header, which is falsy in JavaScript), the
accumulated body and the Content-Type header. -/
structure HttpResponse where
  statusCode : Nat
  location : String
  body : String
  contentType : String
deriving Repr, DecidableEq

/-- The record resolved by fetchContent: body text, content type and
status code. -/
structure FetchResult where
  data : String
  contentType : String
  statusCode : Nat
deriving Repr, DecidableEq

/-- The ways a fetchContent promise can reject: the redirect bound is
exhausted, the abort signal was already set, or the transport errored. -/
inductive FetchError where
  | tooManyRedirects
  | aborted
  | networkError (msg : String)
deriving Repr, DecidableEq

/-- The message of the Error object each rejection carries. -/
def errMessage : FetchError → String
  | FetchError.tooManyRedirects => "Too many redirects"
  | FetchError.aborted => "Request aborted"
  | FetchError.networkError m => m

/-- The redirect test of line 34: statusCode is truthy, lies in
[300, 400), and a truthy Location header is present. -/
def isRedirectResp (r : HttpResponse) : Bool :=
  r.statusCode != 0 && decide (300 ≤ r.statusCode) && decide (r.statusCode < 400)
    && r.location != ""

/-- Shallow embedding of fetchContent.  The network is an abstract
function from URL to response; resolve models the URL constructor
resolving a Location value against the current URL; aborted is the
state of the abort signal.  The maxRedirects counter is an integer that
is decremented on every hop, and the call rejects with
tooManyRedirects as soon as it goes below zero, exactly as the guard on
line 19 of the source.  The abort check of lines 55-58 runs
synchronously before any response callback can settle the promise, so
it is placed before the response is consulted. -/
def fetchContent (net : String → HttpResponse) (resolve : String → String → String)
    (aborted : Bool) (url : String) (maxRedirects : Int) :
    Except FetchError FetchResult :=
  if maxRedirects < 0 then Except.error FetchError.tooManyRedirects
  else if aborted then Except.error FetchError.aborted
  else if isRedirectResp (net url) then
    fetchContent net resolve aborted (resolve (net url).location url) (maxRedirects - 1)
  else Except.ok ⟨(net url).body, (net url).contentType, (net url).statusCode⟩
termination_by (maxRedirects + 1).toNat
decreasing_by
  simp_wf
  omega

/-- chainTo net resolve url n final holds when starting from url the
network presents a chain of exactly n redirect responses ending at the
non-redirect URL final. -/
def chainTo (net : String → HttpResponse) (resolve : String → String → String) :
    String → Nat → String → Bool
  | url, 0, final => !isRedirectResp (net url) && url == final
  | url, n + 1, final =>
    isRedirectResp (net url) && chainTo net resolve (resolve (net url).location url) n final

theorem fetch_chain_ok (net : String → HttpResponse) (resolve : String → String → String) :
    ∀ (n : Nat) (url final : String) (m : Int),
      chainTo net resolve url n final = true → (n : Int) ≤ m →
      fetchContent net resolve false url m =
        Except.ok ⟨(net final).body, (net final).contentType, (net final).statusCode⟩ := by
  intro n
  induction n with
  | zero =>
    intro url final m hc hm
    simp only [chainTo, Bool.and_eq_true, Bool.not_eq_true', beq_iff_eq] at hc
    obtain ⟨h1, h2⟩ := hc
    rw [fetchContent]
    rw [if_neg (by omega), if_neg (by simp), if_neg (by simp [h1]), h2]
  | succ k ih =>
    intro url final m hc hm
    simp only [chainTo, Bool.and_eq_true] at hc
    obtain ⟨h1, h2⟩ := hc
    rw [fetchContent]
    rw [if_neg (by omega), if_neg (by simp), if_pos (by simp [h1])]
    exact ih _ final (m - 1) h2 (by push_cast at hm ⊢; omega)

theorem fetch_chain_tooMany (net : String → HttpResponse) (resolve : String → String → String) :
    ∀ (n : Nat) (url final : String) (m : Int),
      chainTo net resolve url n final = true → m < (n : Int) →
      fetchContent net resolve false url m = Except.error FetchError.tooManyRedirects := by
  intro n
  induction n with
  | zero =>
    intro url final m _ hm
    rw [fetchContent]
    rw [if_pos (by omega)]
  | succ k ih =>
    intro url final m hc hm
    simp only [chainTo, Bool.and_eq_true] at hc
    obtain ⟨h1, h2⟩ := hc
    by_cases hneg : m < 0
    · rw [fetchContent, if_pos hneg]
    · rw [fetchContent]
      rw [if_neg hneg, if_neg (by simp), if_pos (by simp [h1])]
      exact ih _ final (m - 1) h2 (by push_cast at hm ⊢; omega)

/-- Claim C2: for every redirect chain of length at most maxRedirects the
fetcher resolves with the terminal non-redirect response; for every
chain strictly longer than maxRedirects it rejects with the
TooManyRedirects error, whose message is the string Too many redirects;
the hop counter is decremented on every hop and the recursion fails
closed instead of looping. -/
theorem c2_redirect_bound (net : String → HttpResponse) (resolve : String → String → String)
    (url final : String) (n : Nat) (m : Int)
    (hc : chainTo net resolve url n final = true) :
    ((n : Int) ≤ m →
      fetchContent net resolve false url m =
        Except.ok ⟨(net final).body, (net final).contentType, (net final).statusCode⟩) ∧
    (m < (n : Int) →
      fetchContent net resolve false url m = Except.error FetchError.tooManyRedirects ∧
      errMessage FetchError.tooManyRedirects = "Too many redirects") := by
  constructor
  · intro hm
    exact fetch_chain_ok net resolve n url final m hc hm
  · intro hm
    exact ⟨fetch_chain_tooMany net resolve n url final m hc hm, rfl⟩

/-- A two-hop network for the witnesses: URL a redirects to b, URL b
redirects to c, everything else is a terminal 200 response. -/
def wNet : String → HttpResponse := fun u =>
  if u == "a" then ⟨301, "b", "", ""⟩
  else if u == "b" then ⟨302, "c", "", ""⟩
  else ⟨200, "", "done", "text/html"⟩

/-- Location values in the witness network are absolute already. -/
def wResolve : String → String → String := fun loc _ => loc

/-- Witness for C2: with the default budget of five hops the two-hop
chain from a resolves to the terminal response of c, while a budget of
one hop rejects with TooManyRedirects. -/
theorem c2_redirect_bound_witness :
    fetchContent wNet wResolve false "a" 5 = Except.ok ⟨"done", "text/html", 200⟩ ∧
    fetchContent wNet wResolve false "a" 1 = Except.error FetchError.tooManyRedirects := by
  constructor
  · exact (c2_redirect_bound wNet wResolve "a" "c" 2 5 (by decide)).1 (by decide)
  · exact ((c2_redirect_bound wNet wResolve "a" "c" 2 1 (by decide)).2 (by decide)).1

/-- Claim C8: when the abort signal is already set at call time the
fetcher rejects with the Aborted error carrying the message Request
aborted, and the result does not depend on the network at all, so no
network response is consulted. -/
theorem c8_aborted (net net2 : String → HttpResponse) (resolve : String → String → String)
    (url : String) (m : Int) (hm : 0 ≤ m) :
    fetchContent net resolve true url m = Except.error FetchError.aborted ∧
    fetchContent net resolve true url m = fetchContent net2 resolve true url m ∧
    errMessage FetchError.aborted = "Request aborted" := by
  have h : ∀ net3 : String → HttpResponse,
      fetchContent net3 resolve true url m = Except.error FetchError.aborted := by
    intro net3
    rw [fetchContent]
    rw [if_neg (by omega), if_pos rfl]
  exact ⟨h net, by rw [h net, h net2], rfl⟩

/-- Witness for C8: a concrete aborted call at the default budget of
five hops fails with the Aborted error on two different networks. -/
theorem c8_aborted_witness :
    fetchContent wNet wResolve true "a" 5 = Except.error FetchError.aborted :=
  (c8_aborted wNet (fun _ => ⟨0, "", "", ""⟩) wResolve "a" 5 (by decide)).1

/-! ## A model of JavaScript JSON.parse

parseRsc relies on JSON.parse for payload rows and for the quoted
strings of the fallback scan.  The model below is a recursive-descent
parser for JSON text producing a Json value; numbers keep their raw
lexeme because parseRsc never inspects numeric values, only the
typeof-string shape of the result. -/

/-- A JavaScript JSON value as far as parseRsc can observe it. -/
inductive Json where
  | null
  | bool (b : Bool)
  | num (raw : String)
  | str (s : String)
  | arr (items : List Json)
  | obj (fields : List (String × Json))
deriving Repr

/-- JSON insignificant whitespace: space, tab, line feed, carriage
return. -/
def skipWs : List Char → List Char
  | [] => []
  | c :: cs =>
    if c = ' ' ∨ c = '\t' ∨ c = '\n' ∨ c = '\r' then skipWs cs else c :: cs

/-- Value of a hexadecimal digit, if the character is one. -/
def hexDigitVal (c : Char) : Option Nat :=
  if '0' ≤ c ∧ c ≤ '9' then some (c.toNat - 48)
  else if 'a' ≤ c ∧ c ≤ 'f' then some (c.toNat - 87)
  else if 'A' ≤ c ∧ c ≤ 'F' then some (c.toNat - 55)
  else none

/-- Prepend a character to the body of a string-literal parse result. -/
def pushChar (c : Char) :
    Except String (List Char × List Char) → Except String (List Char × List Char)
  | Except.ok (b, r) => Except.ok (c :: b, r)
  | Except.error e => Except.error e

/-- Parse the body of a JSON string literal after the opening quote,
returning the decoded characters and the input after the closing
quote.  Escapes follow the JSON grammar; unescaped control characters
are rejected. -/
def parseStrAux : List Char → Except String (List Char × List Char)
  | [] => Except.error "unterminated string"
  | '"' :: cs => Except.ok ([], cs)
  | '\\' :: '"' :: cs => pushChar '"' (parseStrAux cs)
  | '\\' :: '\\' :: cs => pushChar '\\' (parseStrAux cs)
  | '\\' :: '/' :: cs => pushChar '/' (parseStrAux cs)
  | '\\' :: 'b' :: cs => pushChar (Char.ofNat 8) (parseStrAux cs)
  | '\\' :: 'f' :: cs => pushChar (Char.ofNat 12) (parseStrAux cs)
  | '\\' :: 'n' :: cs => pushChar '\n' (parseStrAux cs)
  | '\\' :: 'r' :: cs => pushChar '\r' (parseStrAux cs)
  | '\\' :: 't' :: cs => pushChar '\t' (parseStrAux cs)
  | '\\' :: 'u' :: h1 :: h2 :: h3 :: h4 :: cs =>
    match hexDigitVal h1, hexDigitVal h2, hexDigitVal h3, hexDigitVal h4 with
    | some a, some b, some c, some d =>
      pushChar (Char.ofNat (((a * 16 + b) * 16 + c) * 16 + d)) (parseStrAux cs)
    | _, _, _, _ => Except.error "bad unicode escape"
  | '\\' :: _ => Except.error "bad escape"
  | c :: cs =>
    if c.toNat < 32 then Except.error "control character in string"
    else pushChar c (parseStrAux cs)

/-- Exponent digits of a JSON number, after the e or E marker. -/
def parseExpDigits (acc : List Char) (e : Char) (cs : List Char) :
    Except String (List Char × List Char) :=
  let (sign, cs1) :=
    match cs with
    | '+' :: t => ([('+' : Char)], t)
    | '-' :: t => ([('-' : Char)], t)
    | _ => (([] : List Char), cs)
  let ds := cs1.takeWhile Char.isDigit
  let cs2 := cs1.dropWhile Char.isDigit
  if ds = [] then Except.error "invalid number"
  else Except.ok (acc ++ e :: (sign ++ ds), cs2)

/-- Optional exponent part of a JSON number. -/
def parseExpPart (acc : List Char) (cs : List Char) :
    Except String (List Char × List Char) :=
  match cs with
  | 'e' :: t => parseExpDigits acc 'e' t
  | 'E' :: t => parseExpDigits acc 'E' t
  | _ => Except.ok (acc, cs)

/-- A JSON number lexeme: optional minus, integer digits, optional
fraction, optional exponent. -/
def parseNumAux (cs : List Char) : Except String (List Char × List Char) :=
  let (sign, cs1) :=
    match cs with
    | '-' :: t => ([('-' : Char)], t)
    | _ => (([] : List Char), cs)
  let ip := cs1.takeWhile Char.isDigit
  let cs2 := cs1.dropWhile Char.isDigit
  if ip = [] then Except.error "invalid number"
  else
    match cs2 with
    | '.' :: t =>
      let fp := t.takeWhile Char.isDigit
      let cs3 := t.dropWhile Char.isDigit
      if fp = [] then Except.error "invalid number"
      else parseExpPart (sign ++ ip ++ '.' :: fp) cs3
    | _ => parseExpPart (sign ++ ip) cs2

mutual

/-- Parse one JSON value.  The fuel argument bounds the recursion depth
and is chosen large enough by jsonParse that it can never run out on
a value that fits in the input. -/
def parseValue : Nat → List Char → Except String (Json × List Char)
  | 0, _ => Except.error "depth exceeded"
  | Nat.succ fuel, cs =>
    match skipWs cs with
    | 'n' :: 'u' :: 'l' :: 'l' :: rest => Except.ok (Json.null, rest)
    | 't' :: 'r' :: 'u' :: 'e' :: rest => Except.ok (Json.bool true, rest)
    | 'f' :: 'a' :: 'l' :: 's' :: 'e' :: rest => Except.ok (Json.bool false, rest)
    | '"' :: rest =>
      match parseStrAux rest with
      | Except.ok (body, rest2) => Except.ok (Json.str (String.mk body), rest2)
      | Except.error e => Except.error e
    | '[' :: rest => parseArrayRest fuel rest
    | '\x7b' :: rest => parseObjRest fuel rest
    | c :: rest =>
      if c = '-' ∨ c.isDigit then
        match parseNumAux (c :: rest) with
        | Except.ok (raw, rest2) => Except.ok (Json.num (String.mk raw), rest2)
        | Except.error e => Except.error e
      else Except.error "unexpected token"
    | [] => Except.error "unexpected end of input"

/-- Continue after the opening bracket of an array. -/
def parseArrayRest : Nat → List Char → Except String (Json × List Char)
  | 0, _ => Except.error "depth exceeded"
  | Nat.succ fuel, cs =>
    match skipWs cs with
    | ']' :: rest => Except.ok (Json.arr [], rest)
    | other =>
      match parseValue fuel other with
      | Except.error e => Except.error e
      | Except.ok (j, rest) => parseArrayTail fuel [j] rest

/-- Continue after a parsed array element: comma and a further element,
or the closing bracket. -/
def parseArrayTail : Nat → List Json → List Char → Except String (Json × List Char)
  | 0, _, _ => Except.error "depth exceeded"
  | Nat.succ fuel, acc, cs =>
    match skipWs cs with
    | ',' :: rest =>
      match parseValue fuel rest with
      | Except.error e => Except.error e
      | Except.ok (j, rest2) => parseArrayTail fuel (acc ++ [j]) rest2
    | ']' :: rest => Except.ok (Json.arr acc, rest)
    | _ => Except.error "expected comma or closing bracket"

/-- Continue after the opening brace of an object. -/
def parseObjRest : Nat → List Char → Except String (Json × List Char)
  | 0, _ => Except.error "depth exceeded"
  | Nat.succ fuel, cs =>
    match skipWs cs with
    | '\x7d' :: rest => Except.ok (Json.obj [], rest)
    | other => parseObjField fuel [] other

/-- Parse one key-value member of an object. -/
def parseObjField : Nat → List (String × Json) → List Char →
    Except String (Json × List Char)
  | 0, _, _ => Except.error "depth exceeded"
  | Nat.succ fuel, acc, cs =>
    match skipWs cs with
    | '"' :: rest =>
      match parseStrAux rest with
      | Except.error e => Except.error e
      | Except.ok (key, rest2) =>
        match skipWs rest2 with
        | ':' :: rest3 =>
          match parseValue fuel rest3 with
          | Except.error e => Except.error e
          | Except.ok (v, rest4) => parseObjTail fuel (acc ++ [(String.mk key, v)]) rest4
        | _ => Except.error "expected colon"
    | _ => Except.error "expected string key"

/-- Continue after a parsed object member: comma and a further member,
or the closing brace. -/
def parseObjTail : Nat → List (String × Json) → List Char →
    Except String (Json × List Char)
  | 0, _, _ => Except.error "depth exceeded"
  | Nat.succ fuel, acc, cs =>
    match skipWs cs with
    | ',' :: rest => parseObjField fuel acc rest
    | '\x7d' :: rest => Except.ok (Json.obj acc, rest)
    | _ => Except.error "expected comma or closing brace"

end

/-- Model of JSON.parse: parse one value and require that only
whitespace remains. -/
def jsonParse (s : String) : Except String Json :=
  match parseValue (2 * s.length + 2) s.toList with
  | Except.error e => Except.error e
  | Except.ok (j, rest) =>
    match skipWs rest with
    | [] => Except.ok j
    | _ => Except.error "unexpected trailing characters"

/-! ## String containment, modelling String.prototype.includes -/

/-- needle is a prefix of hay, character by character. -/
def hasPrefixL : List Char → List Char → Bool
  | [], _ => true
  | _ :: _, [] => false
  | n :: ns, h :: hs => n == h && hasPrefixL ns hs

/-- needle occurs contiguously somewhere in hay. -/
def hasInfixL (needle : List Char) : List Char → Bool
  | [] => needle.isEmpty
  | c :: rest => hasPrefixL needle (c :: rest) || hasInfixL needle rest

/-- Model of the JavaScript includes method on strings. -/
def strIncludes (hay needle : String) : Bool :=
  hasInfixL needle.toList hay.toList

/-- Model of the JavaScript startsWith method on strings. -/
def strStartsWith (s p : String) : Bool :=
  hasPrefixL p.toList s.toList

/-- Lower-case one character, as toLowerCase does on the ASCII range
the detector keywords live in. -/
def charLower (c : Char) : Char :=
  if 'A' ≤ c ∧ c ≤ 'Z' then Char.ofNat (c.toNat + 32) else c

/-- Model of the JavaScript toLowerCase method. -/
def strToLower (s : String) : String :=
  String.mk (s.toList.map charLower)

/-- Whitespace removed by the JavaScript trim method, on the ASCII
range. -/
def isJsSpace (c : Char) : Bool :=
  c = ' ' ∨ c = '\t' ∨ c = '\n' ∨ c = '\r' ∨ c = Char.ofNat 11 ∨ c = Char.ofNat 12

/-- Model of the JavaScript trim method. -/
def strTrim (s : String) : String :=
  String.mk (((s.toList.dropWhile isJsSpace).reverse.dropWhile isJsSpace).reverse)

/-- Split a character list at every occurrence of a separator
character, keeping empty segments, as the JavaScript split method
does. -/
def splitOnChar (sep : Char) : List Char → List (List Char)
  | [] => [[]]
  | c :: rest =>
    let r := splitOnChar sep rest
    if c = sep then [] :: r
    else
      match r with
      | [] => [[c]]
      | h :: t => (c :: h) :: t

/-- Model of splitting a string on the newline character. -/
def strLines (s : String) : List String :=
  (splitOnChar '\n' s.toList).map String.mk

/-- Model of the JavaScript join method on an array of strings. -/
def joinSep (sep : String) : List String → String
  | [] => ""
  | [x] => x
  | x :: xs => x ++ sep ++ joinSep sep xs

/-! ## The RSC payload extractor (parseRsc, lines 63-123) -/

/-- The filter applied to each top-level element of a parsed array row
(lines 94-99): keep strings longer than 20 characters that do not
start with a dollar sign, an at sign or an opening bracket. -/
def arrayItemFilter (j : Json) : Option String :=
  match j with
  | Json.str s =>
    if 20 < s.length ∧ strStartsWith s "$" = false ∧ strStartsWith s "@" = false
        ∧ strStartsWith s "[" = false then some s
    else none
  | _ => none

/-- Strings kept from a successfully parsed payload (lines 84-101): a
plain string longer than 20 characters not starting with a dollar or
at sign is kept on its own; for an array only its top-level elements
are filtered; every other value yields nothing. -/
def extractFromParsed (j : Json) : List String :=
  match j with
  | Json.str s =>
    if 20 < s.length then
      if strStartsWith s "$" = false ∧ strStartsWith s "@" = false then [s] else []
    else []
  | Json.arr items => items.filterMap arrayItemFilter
  | _ => []

/-- Find the closing quote of the regex alternation
(non-quote-non-backslash or backslash followed by a non-line-terminator)
starting right after an opening quote: returns the consumed body and
the input after the closing quote, or none when the quote is never
closed, matching the backtracking behaviour of the scan regex of line
104. -/
def findCloseQuote : List Char → Option (List Char × List Char)
  | [] => none
  | '"' :: cs => some ([], cs)
  | '\\' :: c :: cs =>
    if c = '\n' ∨ c = '\r' then none
    else
      match findCloseQuote cs with
      | some (b, r) => some ('\\' :: c :: b, r)
      | none => none
  | '\\' :: [] => none
  | c :: cs =>
    match findCloseQuote cs with
    | some (b, r) => some (c :: b, r)
    | none => none

/-- One pass of the global quoted-string scan: every non-overlapping
match of the quoted-string regex, in order, each returned with its
surrounding quotes.  The fuel starts at one more than the input length
and every step consumes at least one character, so it never runs out. -/
def scanQuotedAux : Nat → List Char → List String
  | 0, _ => []
  | Nat.succ fuel, cs =>
    match cs with
    | [] => []
    | '"' :: rest =>
      match findCloseQuote rest with
      | some (b, r) => ("\"" ++ String.mk b ++ "\"") :: scanQuotedAux fuel r
      | none => scanQuotedAux fuel rest
    | _ :: rest => scanQuotedAux fuel rest

/-- All quoted-string matches of the fallback scan regex in a payload. -/
def scanQuoted (cs : List Char) : List String :=
  scanQuotedAux (cs.length + 1) cs

/-- The fallback of the catch branch (lines 103-118): scan the payload
for quoted strings, decode each with JSON.parse ignoring failures, and
keep the decoded strings longer than 20 characters that do not start
with a dollar or at sign. -/
def fallbackScan (payload : String) : List String :=
  (scanQuoted payload.toList).filterMap fun m =>
    match jsonParse m with
    | Except.ok (Json.str s) =>
      if 20 < s.length ∧ strStartsWith s "$" = false ∧ strStartsWith s "@" = false then some s
      else none
    | _ => none

/-- Processing of one matched payload (lines 80-119): try JSON.parse;
on success extract from the parsed value, on failure run the fallback
quoted-string scan.  The catch swallows the parse error. -/
def processPayload (payload : String) : List String :=
  match jsonParse payload with
  | Except.ok parsed => extractFromParsed parsed
  | Except.error _ => fallbackScan payload

/-- The row regex of line 75 applied to a trimmed line: one or more
digits, a colon, and a non-empty remainder; returns the remainder. -/
def rowPayload (trimmed : String) : Option String :=
  let cs := trimmed.toList
  let ds := cs.takeWhile Char.isDigit
  let rest := cs.dropWhile Char.isDigit
  match ds, rest with
  | [], _ => none
  | _ :: _, ':' :: p => if p = [] then none else some (String.mk p)
  | _ :: _, _ => none

/-- Strings extracted from one line of the payload (lines 69-120):
skip blank lines, comment lines and lines that do not match the row
regex, and process the payload of the remaining ones. -/
def lineStrings (line : String) : List String :=
  let trimmed := strTrim line
  if trimmed = "" then []
  else if strStartsWith trimmed "#" then []
  else
    match rowPayload trimmed with
    | none => []
    | some payload => processPayload payload

/-- parseRsc (lines 63-123): split into lines, extract strings from
each, and join every kept fragment with a blank-line separator. -/
def parseRsc (data : String) : String :=
  joinSep "\n\n" (List.flatten ((strLines data).map lineStrings))

/-! ## Challenge detection (lines 143-151 and 212-218) -/

/-- The keyword set of the challenge detector. -/
def challengeKeywords : List String :=
  ["challenge", "captcha", "cloudflare", "just a moment..."]

/-- The blocking test of lines 144-151: status 403, 429 or 503, or any
challenge keyword in the lower-cased body. -/
def isChallenge (statusCode : Nat) (data : String) : Bool :=
  let lowerData := strToLower data
  statusCode == 403 || statusCode == 429 || statusCode == 503 ||
    strIncludes lowerData "challenge" || strIncludes lowerData "captcha" ||
    strIncludes lowerData "cloudflare" || strIncludes lowerData "just a moment..."

/-- The keyword-only blocking test used on the proxy body
(lines 212-218). -/
def jinaBlocked (data : String) : Bool :=
  let lower := strToLower data
  strIncludes lower "challenge" || strIncludes lower "captcha" ||
    strIncludes lower "cloudflare" || strIncludes lower "just a moment..."

/-- Claim C3: the challenge detector answers true for every response
with status 403, 429 or 503 regardless of body; true for a status-200
response whose lower-cased body contains one of the fixed keywords, so
in any letter case; and false for a status-200 response whose
lower-cased body contains none of them. -/
theorem c3_challenge_detector :
    (∀ (s : Nat) (body : String), s = 403 ∨ s = 429 ∨ s = 503 →
      isChallenge s body = true) ∧
    (∀ (body kw : String), kw ∈ challengeKeywords →
      strIncludes (strToLower body) kw = true → isChallenge 200 body = true) ∧
    (∀ body : String, (∀ kw ∈ challengeKeywords, strIncludes (strToLower body) kw = false) →
      isChallenge 200 body = false) := by
  refine ⟨?_, ?_, ?_⟩
  · intro s body hs
    rcases hs with h | h | h <;> subst h <;> simp [isChallenge]
  · intro body kw hkw hin
    simp only [challengeKeywords, List.mem_cons, List.not_mem_nil, or_false] at hkw
    rcases hkw with h | h | h | h <;> subst h <;> simp [isChallenge, hin]
  · intro body hall
    have h1 := hall "challenge" (by simp [challengeKeywords])
    have h2 := hall "captcha" (by simp [challengeKeywords])
    have h3 := hall "cloudflare" (by simp [challengeKeywords])
    have h4 := hall "just a moment..." (by simp [challengeKeywords])
    simp [isChallenge, h1, h2, h3, h4]

/-- Witness for C3 at concrete inputs: a 503 with an empty body, a 200
with an upper-case CAPTCHA marker, and a 200 with an unrelated body. -/
theorem c3_challenge_detector_witness :
    isChallenge 503 "" = true ∧
    isChallenge 200 "Please solve the CAPTCHA first" = true ∧
    isChallenge 200 "plain article text" = false := by
  refine ⟨?_, ?_, ?_⟩
  · exact c3_challenge_detector.1 503 "" (by decide)
  · exact c3_challenge_detector.2.1 "Please solve the CAPTCHA first" "captcha"
      (by decide) (by decide)
  · exact c3_challenge_detector.2.2 "plain article text" (by decide)

/-- Claim C4: the payload extractor is total.  Every payload of a row
is handled either by the successful-parse branch or, when JSON.parse
fails, by the locally recovering fallback scan, so no parse failure
escapes; the overall result is always the blank-line join of a list of
fragments, and empty, partial and malformed inputs all yield the empty
string without error. -/
theorem c4_parseRsc_total :
    (∀ payload : String,
      (∃ j, jsonParse payload = Except.ok j ∧ processPayload payload = extractFromParsed j) ∨
      (∃ e, jsonParse payload = Except.error e ∧ processPayload payload = fallbackScan payload)) ∧
    (∀ data : String, ∃ fragments : List String,
      parseRsc data = joinSep "\n\n" fragments) ∧
    parseRsc "" = "" ∧
    parseRsc "1:" = "" ∧
    parseRsc "2:\x7b\"unclosed\": " = "" ∧
    parseRsc "not a row" = "" := by
  refine ⟨?_, ?_, by decide, by decide, by decide, by decide⟩
  · intro payload
    cases h : jsonParse payload with
    | ok j => exact Or.inl ⟨j, rfl, by simp [processPayload, h]⟩
    | error e => exact Or.inr ⟨e, rfl, by simp [processPayload, h]⟩
  · intro data
    exact ⟨_, rfl⟩

/-- Counterexample for C5 as stated: a malformed-JSON payload line whose
embedded quoted string has exactly 20 characters, hence at least 20,
yields the empty string rather than that string, because the fallback
filter of line 109 requires strictly more than 20 characters. -/
theorem c5_counterexample :
    ("twenty chars exact!!").length = 20 ∧
    parseRsc "4:\x7b\"k\": \"twenty chars exact!!\"" = "" := by
  exact ⟨by decide, by decide⟩

/-- Claim C5 (amended): a parsed plain string is kept exactly when it is
longer than 20 characters and does not begin with a dollar or at sign;
the long plain-string row yields its exact string, the array row whose
candidate strings are short or sentinel-prefixed yields the empty
output, and a malformed-JSON payload line with an embedded quoted
string of strictly more than 20 characters still yields that string
via the fallback quoted-string scan. -/
theorem c5_keep_rule (payload s : String)
    (h : jsonParse payload = Except.ok (Json.str s)) :
    (processPayload payload =
      if 20 < s.length ∧ strStartsWith s "$" = false ∧ strStartsWith s "@" = false
      then [s] else []) ∧
    parseRsc "1:\"hello world this is a long enough string\"" =
      "hello world this is a long enough string" ∧
    parseRsc "2:[\"$\",\"div\",\x7b\"children\":\"short\"\x7d]" = "" ∧
    parseRsc "3:\x7b\"k\": \"this quoted string is over twenty\"" =
      "this quoted string is over twenty" := by
  refine ⟨?_, by decide, by decide, by decide⟩
  simp only [processPayload, h, extractFromParsed]
  by_cases h1 : 20 < s.length
  · by_cases h2 : strStartsWith s "$" = false
    · by_cases h3 : strStartsWith s "@" = false
      · simp [h1, h2, h3]
      · simp [h1, h2, h3]
    · simp [h1, h2]
  · simp [h1]

/-- Witness for C5: the keep rule applied to the concrete parsed string
row of the claim. -/
theorem c5_keep_rule_witness :
    processPayload "\"hello world this is a long enough string\"" =
      ["hello world this is a long enough string"] := by
  rw [(c5_keep_rule "\"hello world this is a long enough string\""
    "hello world this is a long enough string" rfl).1]
  decide

/-- Claim C9: when a payload parses as a JSON array, the extraction is
exactly the top-level filter over its elements, so every extracted
string is itself a top-level element and the fallback scan is never
consulted; strings nested inside sub-arrays or inside object values
are not extracted even when the raw line contains them as quoted
text. -/
theorem c9_top_level_only (payload : String) (items : List Json)
    (h : jsonParse payload = Except.ok (Json.arr items)) :
    processPayload payload = items.filterMap arrayItemFilter ∧
    (∀ s, s ∈ processPayload payload → Json.str s ∈ items) ∧
    parseRsc "1:[[\"a nested long string over twenty chars\"]]" = "" ∧
    parseRsc "1:[\x7b\"k\":\"a nested long string over twenty chars\"\x7d]" = "" := by
  have hmain : processPayload payload = items.filterMap arrayItemFilter := by
    simp [processPayload, h, extractFromParsed]
  refine ⟨hmain, ?_, by decide, by decide⟩
  intro s hs
  rw [hmain, List.mem_filterMap] at hs
  obtain ⟨j, hj, hf⟩ := hs
  cases j with
  | str t =>
    simp only [arrayItemFilter] at hf
    split at hf
    · cases hf
      exact hj
    · cases hf
  | null => cases hf
  | bool b => cases hf
  | num r => cases hf
  | arr l => cases hf
  | obj l => cases hf

/-- Witness for C9: a concrete array row with one sentinel string and
one long plain string keeps exactly the long top-level string. -/
theorem c9_top_level_only_witness :
    processPayload "[\"$L1\",\"this top level string is long enough\"]" =
      ["this top level string is long enough"] := by
  rw [(c9_top_level_only "[\"$L1\",\"this top level string is long enough\"]"
    [Json.str "$L1", Json.str "this top level string is long enough"] rfl).1]
  decide

/-! ## The fetch_url orchestrator (execute, lines 134-253) -/

/-- The outcome of the Readability parse call as the orchestrator can
observe it: a title string and a content field that may be null. -/
structure Article where
  title : String
  content : Option String
deriving Repr

/-- A tool result: the single text block and the isError flag (absent
on success paths, modelled as false). -/
structure ToolResult where
  text : String
  isError : Bool
deriving Repr, DecidableEq

/-- The collaborators of one execute invocation: the network as seen
through fetchContent with the headers, signal and redirect budget of
the call sites; the Readability extraction on the fetched HTML; the
Turndown markdown conversion; and the list of inline script text
contents of the parsed document. -/
structure Env where
  net : String → Except FetchError FetchResult
  readability : String → Option Article
  markdown : String → String
  scripts : String → List String

/-- The passthrough content types of lines 158-162. -/
def passthroughCt (ct : String) : Bool :=
  strIncludes ct "application/json" || strIncludes ct "text/plain" ||
    strIncludes ct "text/markdown"

/-- The HTML branch of lines 173-190: a Text outcome is produced only
when Readability returned an article whose content is truthy and
longer than 100 characters, and the text is the markdown conversion
prefixed by a level-1 heading holding the article title. -/
def htmlExtract (article : Option Article) (markdown : String → String) : Option String :=
  match article with
  | none => none
  | some a =>
    match a.content with
    | none => none
    | some c =>
      if c ≠ "" ∧ 100 < c.length then some ("# " ++ a.title ++ "\n\n" ++ markdown c)
      else none

/-- The inline-script loop of lines 193-201: the first script whose
text content is truthy, contains the next-payload marker and whose
parseRsc extraction exceeds 50 characters yields that extraction. -/
def scriptScan : List String → Option String
  | [] => none
  | s :: rest =>
    if s ≠ "" ∧ strIncludes s "self.__next_f.push" = true then
      let rscText := parseRsc s
      if 50 < rscText.length then some rscText else scriptScan rest
    else scriptScan rest

/-- The local classification of lines 143-203: none means fall through
to the Jina proxy.  A challenge response and a non-2xx response fall
through; otherwise the passthrough content types return the body, a
component content type returns a sufficiently long parseRsc
extraction, and an HTML content type tries Readability and then the
inline-script scan. -/
def classifyLocal (env : Env) (r : FetchResult) : Option ToolResult :=
  if isChallenge r.statusCode r.data then none
  else if 200 ≤ r.statusCode ∧ r.statusCode < 300 then
    if passthroughCt r.contentType then some ⟨r.data, false⟩
    else
      let componentText : Option String :=
        if strIncludes r.contentType "text/x-component" then
          let rscText := parseRsc r.data
          if 50 < rscText.length then some rscText else none
        else none
      match componentText with
      | some t => some ⟨t, false⟩
      | none =>
        if strIncludes r.contentType "text/html" then
          match htmlExtract (env.readability r.data) env.markdown with
          | some t => some ⟨t, false⟩
          | none =>
            match scriptScan (env.scripts r.data) with
            | some t => some ⟨t, false⟩
            | none => none
        else none
  else none

/-- The error-flagged result produced when the proxy body is also
blocked (lines 219-228). -/
def jinaBlockedText : String :=
  "Unable to fetch content due to access restrictions (Jina Reader also blocked).\nPlease use the \"agent-browser\" tool to access this page."

/-- The error-flagged result produced when the proxy answers outside
[200, 300) (lines 231-241). -/
def jinaFailText (code : Nat) : String :=
  "Failed to fetch content via local parser and Jina Reader (Status: " ++ toString code
    ++ ").\nPlease use the \"agent-browser\" tool."

/-- The error-flagged result of the single top-level catch
(lines 242-252). -/
def topErrorText (msg : String) : String :=
  "Error fetching URL: " ++ msg
    ++ "\n\nPlease try using the \"agent-browser\" tool to access this page."

/-- The proxy URL template of line 207. -/
def jinaUrl (url : String) : String := "https://r.jina.ai/" ++ url

/-- Handling of the proxy fetch outcome (lines 208-241): a rejected
fetch is converted by the top-level catch; a 2xx body is checked for
challenge keywords and otherwise returned verbatim; a non-2xx status
yields the status-naming error result. -/
def jinaClassify (res : Except FetchError FetchResult) : ToolResult :=
  match res with
  | Except.error e => ⟨topErrorText (errMessage e), true⟩
  | Except.ok r =>
    if 200 ≤ r.statusCode ∧ r.statusCode < 300 then
      if jinaBlocked r.data then ⟨jinaBlockedText, true⟩
      else ⟨r.data, false⟩
    else ⟨jinaFailText r.statusCode, true⟩

/-- The execute entry point of the fetch_url tool (lines 134-253):
fetch locally, classify, and on fall-through fetch the Jina proxy;
every rejected fetch is converted to an error result by the one
top-level catch. -/
def executeTool (env : Env) (url : String) : ToolResult :=
  match env.net url with
  | Except.error e => ⟨topErrorText (errMessage e), true⟩
  | Except.ok r =>
    match classifyLocal env r with
    | some t => t
    | none => jinaClassify (env.net (jinaUrl url))

theorem isChallenge_503 (d : String) : isChallenge 503 d = true := by
  simp [isChallenge]

/-- Claim C1: when the local fetch resolves with status 503, execute
falls through to the proxy fetch at the Jina URL; the result does not
depend on the Readability, markdown or script collaborators, which are
therefore never invoked; and when the proxy answers 2xx with a body
that also trips the keyword check, the final result is error-flagged
with the text stating that the Jina Reader fallback was also
blocked. -/
theorem c1_local_blocked (env : Env) (url d ct : String)
    (h : env.net url = Except.ok ⟨d, ct, 503⟩) :
    executeTool env url = jinaClassify (env.net (jinaUrl url)) ∧
    (∀ rd md sc, executeTool ⟨env.net, rd, md, sc⟩ url = jinaClassify (env.net (jinaUrl url))) ∧
    (∀ (jd jct : String) (jcode : Nat),
      env.net (jinaUrl url) = Except.ok ⟨jd, jct, jcode⟩ →
      200 ≤ jcode → jcode < 300 → jinaBlocked jd = true →
      executeTool env url = ⟨jinaBlockedText, true⟩) := by
  have hcls : ∀ env2 : Env, classifyLocal env2 ⟨d, ct, 503⟩ = none := by
    intro env2
    simp [classifyLocal, isChallenge_503]
  have hmain : ∀ rd md sc,
      executeTool ⟨env.net, rd, md, sc⟩ url = jinaClassify (env.net (jinaUrl url)) := by
    intro rd md sc
    simp only [executeTool, h, hcls]
  have hself : executeTool env url = jinaClassify (env.net (jinaUrl url)) := by
    simp only [executeTool, h, hcls]
  refine ⟨hself, hmain, ?_⟩
  intro jd jct jcode hj h2 h3 hb
  rw [hself, hj]
  simp only [jinaClassify]
  rw [if_pos ⟨h2, h3⟩, if_pos hb]

/-- Trivial Readability collaborator for the witness environments. -/
def wReadability : String → Option Article := fun _ => none

/-- Trivial script collaborator for the witness environments. -/
def wScripts : String → List String := fun _ => []

/-- Witness environment for C1: the target URL answers 503 and the
proxy URL answers 200 with a captcha marker in the body. -/
def wEnv1 : Env :=
  ⟨fun u => if u == "u" then Except.ok ⟨"", "", 503⟩
    else Except.ok ⟨"please solve the captcha", "text/plain", 200⟩,
    wReadability, id, wScripts⟩

/-- Witness for C1: on the 503-then-blocked-proxy environment the final
result is the error-flagged both-paths-blocked text. -/
theorem c1_local_blocked_witness :
    executeTool wEnv1 "u" = ⟨jinaBlockedText, true⟩ :=
  (c1_local_blocked wEnv1 "u" "" "" rfl).2.2 "please solve the captcha" "text/plain" 200
    rfl (by decide) (by decide) (by decide)

/-- Claim C6: the HTML branch produces a Text outcome only when
Readability found an article with a title field and a content region
longer than 100 characters, in which case the text is the markdown
conversion prefixed by a level-1 heading with the title; a missing or
short article produces no outcome, and then the caller proceeds to the
next strategy, the inline-script scan. -/
theorem c6_readable_document (article : Option Article) (md : String → String) :
    (∀ t, htmlExtract article md = some t →
      ∃ a c, article = some a ∧ a.content = some c ∧ 100 < c.length ∧
        t = "# " ++ a.title ++ "\n\n" ++ md c) ∧
    htmlExtract none md = none ∧
    (∀ a c, article = some a → a.content = some c → c.length ≤ 100 →
      htmlExtract article md = none) ∧
    (∀ (env : Env) (r : FetchResult),
      isChallenge r.statusCode r.data = false →
      200 ≤ r.statusCode → r.statusCode < 300 →
      passthroughCt r.contentType = false →
      strIncludes r.contentType "text/x-component" = false →
      strIncludes r.contentType "text/html" = true →
      htmlExtract (env.readability r.data) env.markdown = none →
      classifyLocal env r =
        Option.map (fun t => ToolResult.mk t false) (scriptScan (env.scripts r.data))) := by
  refine ⟨?_, rfl, ?_, ?_⟩
  · intro t ht
    match article with
    | none => exact absurd ht (by simp [htmlExtract])
    | some a =>
      match hc : a.content with
      | none => simp [htmlExtract, hc] at ht
      | some c =>
        simp only [htmlExtract, hc] at ht
        split at ht
        · rename_i hcond
          cases ht
          exact ⟨a, c, rfl, hc, hcond.2, rfl⟩
        · cases ht
  · intro a c ha hc hle
    subst ha
    simp only [htmlExtract, hc]
    rw [if_neg]
    rintro ⟨-, h2⟩
    omega
  · intro env r h1 h2 h3 h4 h5 h6 h7
    simp only [classifyLocal, h1, Bool.false_eq_true, if_false, h4, h5, h6, h7]
    rw [if_pos ⟨h2, h3⟩]
    cases scriptScan (env.scripts r.data) <;> simp

/-- A content region of more than 100 characters for the C6 witness. -/
def wLongContent : String :=
  "Lorem ipsum dolor sit amet, consectetur adipiscing elit, sed do eiusmod tempor incididunt ut labore et dolore magna aliqua."

set_option maxRecDepth 8192 in
/-- Witness for C6: a long article yields the heading-prefixed text and
a short article yields no outcome. -/
theorem c6_readable_document_witness :
    (∃ a c, (some (Article.mk "Title" (some wLongContent)) : Option Article) = some a ∧
      a.content = some c ∧ 100 < c.length ∧
      ("# Title\n\n" ++ wLongContent) = "# " ++ a.title ++ "\n\n" ++ id c) ∧
    htmlExtract (some (Article.mk "Title" (some "short"))) id = none := by
  constructor
  · exact (c6_readable_document (some (Article.mk "Title" (some wLongContent))) id).1
      ("# Title\n\n" ++ wLongContent) (by decide)
  · exact (c6_readable_document (some (Article.mk "Title" (some "short"))) id).2.2.1
      (Article.mk "Title" (some "short")) "short" rfl rfl (by decide)

/-- Claim C7: every exception escaping the fetch sequence is caught by
the single top-level catch and converted to an error-flagged result
whose text carries the message of the exception, both when the local
fetch rejects and when the proxy fetch rejects; no invocation ends
without a tool result. -/
theorem c7_top_level_catch (env : Env) (url : String) :
    (∀ e, env.net url = Except.error e →
      executeTool env url = ⟨topErrorText (errMessage e), true⟩) ∧
    (∀ r e, env.net url = Except.ok r → classifyLocal env r = none →
      env.net (jinaUrl url) = Except.error e →
      executeTool env url = ⟨topErrorText (errMessage e), true⟩) := by
  constructor
  · intro e he
    simp only [executeTool, he]
  · intro r e hr hc hj
    simp only [executeTool, hr, hc, jinaClassify, hj]

/-- Witness environment for C7: the local fetch rejects with a
transport error. -/
def wEnv7a : Env :=
  ⟨fun _ => Except.error (FetchError.networkError "connection reset"),
    wReadability, id, wScripts⟩

/-- Witness environment for C7: the local fetch yields an unclassified
500 and the proxy fetch rejects with the redirect error. -/
def wEnv7b : Env :=
  ⟨fun u => if u == "u" then Except.ok ⟨"", "", 500⟩
    else Except.error FetchError.tooManyRedirects,
    wReadability, id, wScripts⟩

/-- Witness for C7: both rejection sites are converted to the
error-flagged message-carrying result. -/
theorem c7_top_level_catch_witness :
    executeTool wEnv7a "u" = ⟨topErrorText "connection reset", true⟩ ∧
    executeTool wEnv7b "u" = ⟨topErrorText "Too many redirects", true⟩ := by
  constructor
  · exact (c7_top_level_catch wEnv7a "u").1 (FetchError.networkError "connection reset") rfl
  · exact (c7_top_level_catch wEnv7b "u").2 ⟨"", "", 500⟩ FetchError.tooManyRedirects rfl
      (by decide) rfl

/-- Claim C10: on the proxy-fallback path a proxy response with status
in [200, 300) containing no challenge keyword is returned verbatim as
a non-error result, with no minimum-length requirement on the body. -/
theorem c10_proxy_verbatim (env : Env) (url : String) (r : FetchResult)
    (jd jct : String) (jsc : Nat)
    (hl : env.net url = Except.ok r)
    (hcls : classifyLocal env r = none)
    (hj : env.net (jinaUrl url) = Except.ok ⟨jd, jct, jsc⟩)
    (h2 : 200 ≤ jsc) (h3 : jsc < 300)
    (hnb : jinaBlocked jd = false) :
    executeTool env url = ⟨jd, false⟩ := by
  simp only [executeTool, hl, hcls, jinaClassify, hj]
  rw [if_pos ⟨h2, h3⟩, if_neg (by simp [hnb])]

/-- Witness environment for C10: the target URL answers an unclassified
404 and the proxy answers 200 with an empty body. -/
def wEnv10 : Env :=
  ⟨fun u => if u == "u" then Except.ok ⟨"not found", "text/html", 404⟩
    else Except.ok ⟨"", "", 200⟩,
    wReadability, id, wScripts⟩

/-- Witness for C10: the empty proxy body comes back as a successful
result whose text is the empty string. -/
theorem c10_proxy_verbatim_witness :
    executeTool wEnv10 "u" = ⟨"", false⟩ :=
  c10_proxy_verbatim wEnv10 "u" ⟨"not found", "text/html", 404⟩ "" "" 200
    rfl (by decide) rfl (by decide) (by decide) (by decide)

end FetchUrl
